import Mathlib

/-!
Verification development for the two numerical procedures of the repository:
the Gaussian naive Bayes scorer of
`5 - Naive Bayes Classification/Naive Bayes Classification_eleve.ipynb`
and the Gaussian-process surrogate / EGO loop of
`7 - Surrogate based optimization/GP Regression.ipynb`.

Real-valued notebook code is embedded over `ℝ`.  NumPy/SciPy primitives are
embedded by their documented mathematics: `np.mean` is the arithmetic mean,
`np.std` the population (ddof = 0) standard deviation, `scipy.stats.norm.pdf`
the Gaussian density and `norm.logpdf` its closed-form logarithm.
-/

open Real

namespace MLRepo

/-! ## Naive Bayes notebook: data and fitted parameters

The nine-record sex/height/weight/foot-size dataset loaded from
`sex_classif.csv` (shown in full by the notebook's first cell). -/

noncomputable def data : List (ℝ × ℝ × ℝ × ℝ) :=
  [(0, 1.82, 82, 30), (0, 1.80, 86, 28), (0, 1.70, 77, 30), (0, 1.80, 75, 25),
   (1, 1.52, 45, 15), (1, 1.65, 68, 20), (1, 1.68, 59, 18), (1, 1.75, 68, 23),
   (1, 1.58, 49, 19)]

/-- `np.mean` of a list of reals. -/
noncomputable def np_mean (l : List ℝ) : ℝ := l.sum / l.length

/-- `np.std` of a list of reals: population standard deviation (ddof = 0). -/
noncomputable def np_std (l : List ℝ) : ℝ :=
  Real.sqrt (np_mean (l.map (fun x => (x - np_mean l) ^ 2)))

/-- `dataM = data[data[:,0]==0]`. -/
noncomputable def dataM : List (ℝ × ℝ × ℝ × ℝ) := data.filter (fun r => r.1 = 0)

/-- `dataF = data[data[:,0]==1]`. -/
noncomputable def dataF : List (ℝ × ℝ × ℝ × ℝ) := data.filter (fun r => r.1 = 1)

noncomputable def colH (l : List (ℝ × ℝ × ℝ × ℝ)) : List ℝ := l.map (fun r => r.2.1)

noncomputable def colW (l : List (ℝ × ℝ × ℝ × ℝ)) : List ℝ := l.map (fun r => r.2.2.1)

noncomputable def colF (l : List (ℝ × ℝ × ℝ × ℝ)) : List ℝ := l.map (fun r => r.2.2.2)

noncomputable def mu_HS0 : ℝ := np_mean (colH dataM)

noncomputable def std_HS0 : ℝ := np_std (colH dataM)

noncomputable def mu_WS0 : ℝ := np_mean (colW dataM)

noncomputable def std_WS0 : ℝ := np_std (colW dataM)

noncomputable def mu_FS0 : ℝ := np_mean (colF dataM)

noncomputable def std_FS0 : ℝ := np_std (colF dataM)

noncomputable def pS0 : ℝ := (dataM.length : ℝ) / (data.length : ℝ)

noncomputable def mu_HS1 : ℝ := np_mean (colH dataF)

noncomputable def std_HS1 : ℝ := np_std (colH dataF)

noncomputable def mu_WS1 : ℝ := np_mean (colW dataF)

noncomputable def std_WS1 : ℝ := np_std (colW dataF)

noncomputable def mu_FS1 : ℝ := np_mean (colF dataF)

noncomputable def std_FS1 : ℝ := np_std (colF dataF)

noncomputable def pS1 : ℝ := (dataF.length : ℝ) / (data.length : ℝ)

/-- `scipy.stats.norm.pdf x mu s`. -/
noncomputable def norm_pdf (x mu s : ℝ) : ℝ :=
  Real.exp (-((x - mu) / s) ^ 2 / 2) / (s * Real.sqrt (2 * Real.pi))

/-- `scipy.stats.norm.logpdf x mu s` (its closed form). -/
noncomputable def norm_logpdf (x mu s : ℝ) : ℝ :=
  -((x - mu) / s) ^ 2 / 2 - Real.log s - Real.log (2 * Real.pi) / 2

/-- `score_M` for the query `(H, W, F) = (1.81, 59, 21)`. -/
noncomputable def score_M : ℝ :=
  pS0 * norm_pdf 1.81 mu_HS0 std_HS0 * norm_pdf 59 mu_WS0 std_WS0 *
    norm_pdf 21 mu_FS0 std_FS0

/-- `score_F` for the query `(H, W, F) = (1.81, 59, 21)`. -/
noncomputable def score_F : ℝ :=
  pS1 * norm_pdf 1.81 mu_HS1 std_HS1 * norm_pdf 59 mu_WS1 std_WS1 *
    norm_pdf 21 mu_FS1 std_FS1

/-- `log_score_M` computed by log-space accumulation. -/
noncomputable def log_score_M : ℝ :=
  Real.log pS0 + norm_logpdf 1.81 mu_HS0 std_HS0 + norm_logpdf 59 mu_WS0 std_WS0 +
    norm_logpdf 21 mu_FS0 std_FS0

/-- `log_score_F` computed by log-space accumulation. -/
noncomputable def log_score_F : ℝ :=
  Real.log pS1 + norm_logpdf 1.81 mu_HS1 std_HS1 + norm_logpdf 59 mu_WS1 std_WS1 +
    norm_logpdf 21 mu_FS1 std_FS1

/-- The per-class normalized posteriors printed by the notebook:
`score_M/(score_M+score_F)` and `score_F/(score_M+score_F)`. -/
noncomputable def nb_posteriors (s1 s2 : ℝ) : ℝ × ℝ := (s1 / (s1 + s2), s2 / (s1 + s2))

/-- Generic direct-product class score `prior(c) * prod_i p(x_i|c)`
(the shape of `score_M`/`score_F` for a list of density values). -/
noncomputable def nb_score (prior : ℝ) (ps : List ℝ) : ℝ := prior * ps.prod

/-- Generic log-space accumulation `log(prior(c)) + sum_i log p(x_i|c)`
(the shape of `log_score_M`/`log_score_F`). -/
noncomputable def nb_log_score (prior : ℝ) (ps : List ℝ) : ℝ :=
  Real.log prior + (ps.map Real.log).sum

/-- Modelled from the spec: a normalized posterior is "obtained by exponentiating
relative to the max log-score and normalizing to sum to 1 (numerically stable
softmax over classes)"; this softmax does not appear in the notebook code. -/
noncomputable def nb_proba_softmax (l1 l2 : ℝ) : ℝ :=
  Real.exp (l1 - max l1 l2) / (Real.exp (l1 - max l1 l2) + Real.exp (l2 - max l1 l2))

/-! ## Rigorous numeric bounds on the logarithms appearing in the worked example -/

lemma log_series_bound (x : ℝ) (hx1 : |x| < 1) :
    -(∑ i in Finset.range 8, x ^ (i + 1) / (i + 1)) - |x| ^ 9 / (1 - |x|) ≤ Real.log (1 - x) ∧
    Real.log (1 - x) ≤ -(∑ i in Finset.range 8, x ^ (i + 1) / (i + 1)) + |x| ^ 9 / (1 - |x|) := by
  have h := Real.abs_log_sub_add_sum_range_le hx1 8
  rw [abs_le] at h
  constructor <;> linarith [h.1, h.2]

lemma log_4_9_bounds : (-0.811031 : ℝ) ≤ Real.log (4 / 9) ∧ Real.log (4 / 9 : ℝ) ≤ -0.81083 := by
  have h := log_series_bound (1 / 9 : ℝ) (by rw [abs_lt]; norm_num)
  norm_num [Finset.sum_range_succ, abs_of_nonneg] at h
  have hdec : Real.log (4 / 9 : ℝ) = (-1 : ℝ) * Real.log 2 + Real.log (8 / 9 : ℝ) := by
    rw [show (4 / 9 : ℝ) = 2 ^ (-1 : ℤ) * (8 / 9 : ℝ) by norm_num,
      Real.log_mul (by norm_num) (by norm_num), Real.log_zpow]
    norm_num
  constructor <;> linarith [Real.log_two_gt_d9, Real.log_two_lt_d9, h.1, h.2, hdec]

lemma log_5_9_bounds : (-0.587887 : ℝ) ≤ Real.log (5 / 9) ∧ Real.log (5 / 9 : ℝ) ≤ -0.587686 := by
  have h := log_series_bound (-1 / 9 : ℝ) (by rw [abs_lt]; norm_num)
  norm_num [Finset.sum_range_succ, abs_of_nonpos] at h
  have hdec : Real.log (5 / 9 : ℝ) = (-1 : ℝ) * Real.log 2 + Real.log (10 / 9 : ℝ) := by
    rw [show (5 / 9 : ℝ) = 2 ^ (-1 : ℤ) * (10 / 9 : ℝ) by norm_num,
      Real.log_mul (by norm_num) (by norm_num), Real.log_zpow]
    norm_num
  constructor <;> linarith [Real.log_two_gt_d9, Real.log_two_lt_d9, h.1, h.2, hdec]

lemma log_11_5000_bounds :
    (-6.119398 : ℝ) ≤ Real.log (11 / 5000) ∧ Real.log (11 / 5000 : ℝ) ≤ -6.119197 := by
  have h := log_series_bound (-79 / 625 : ℝ) (by rw [abs_lt]; norm_num)
  norm_num [Finset.sum_range_succ, abs_of_nonpos] at h
  have hdec : Real.log (11 / 5000 : ℝ) = (-9 : ℝ) * Real.log 2 + Real.log (704 / 625 : ℝ) := by
    rw [show (11 / 5000 : ℝ) = 2 ^ (-9 : ℤ) * (704 / 625 : ℝ) by norm_num,
      Real.log_mul (by norm_num) (by norm_num), Real.log_zpow]
    norm_num
  constructor <;> linarith [Real.log_two_gt_d9, Real.log_two_lt_d9, h.1, h.2, hdec]

lemma log_37_2_bounds : (2.91767 : ℝ) ≤ Real.log (37 / 2) ∧ Real.log (37 / 2 : ℝ) ≤ 2.917871 := by
  have h := log_series_bound (-5 / 32 : ℝ) (by rw [abs_lt]; norm_num)
  norm_num [Finset.sum_range_succ, abs_of_nonpos] at h
  have hdec : Real.log (37 / 2 : ℝ) = (4 : ℝ) * Real.log 2 + Real.log (37 / 32 : ℝ) := by
    rw [show (37 / 2 : ℝ) = 2 ^ (4 : ℤ) * (37 / 32 : ℝ) by norm_num,
      Real.log_mul (by norm_num) (by norm_num), Real.log_zpow]
    norm_num
  constructor <;> linarith [Real.log_two_gt_d9, Real.log_two_lt_d9, h.1, h.2, hdec]

lemma log_67_16_bounds : (1.432003 : ℝ) ≤ Real.log (67 / 16) ∧ Real.log (67 / 16 : ℝ) ≤ 1.432204 := by
  have h := log_series_bound (-3 / 64 : ℝ) (by rw [abs_lt]; norm_num)
  norm_num [Finset.sum_range_succ, abs_of_nonpos] at h
  have hdec : Real.log (67 / 16 : ℝ) = (2 : ℝ) * Real.log 2 + Real.log (67 / 64 : ℝ) := by
    rw [show (67 / 16 : ℝ) = 2 ^ (2 : ℤ) * (67 / 64 : ℝ) by norm_num,
      Real.log_mul (by norm_num) (by norm_num), Real.log_zpow]
    norm_num
  constructor <;> linarith [Real.log_two_gt_d9, Real.log_two_lt_d9, h.1, h.2, hdec]

lemma log_793_125000_bounds :
    (-5.060346 : ℝ) ≤ Real.log (793 / 125000) ∧ Real.log (793 / 125000 : ℝ) ≤ -5.060145 := by
  have h := log_series_bound (2937 / 15625 : ℝ) (by rw [abs_lt]; norm_num)
  norm_num [Finset.sum_range_succ, abs_of_nonneg] at h
  have hdec : Real.log (793 / 125000 : ℝ) =
      (-7 : ℝ) * Real.log 2 + Real.log (12688 / 15625 : ℝ) := by
    rw [show (793 / 125000 : ℝ) = 2 ^ (-7 : ℤ) * (12688 / 15625 : ℝ) by norm_num,
      Real.log_mul (by norm_num) (by norm_num), Real.log_zpow]
    norm_num
  constructor <;> linarith [Real.log_two_gt_d9, Real.log_two_lt_d9, h.1, h.2, hdec]

lemma log_2254_25_bounds :
    (4.501485 : ℝ) ≤ Real.log (2254 / 25) ∧ Real.log (2254 / 25 : ℝ) ≤ 4.501686 := by
  have h := log_series_bound (473 / 1600 : ℝ) (by rw [abs_lt]; norm_num)
  norm_num [Finset.sum_range_succ, abs_of_nonneg] at h
  have hdec : Real.log (2254 / 25 : ℝ) = (7 : ℝ) * Real.log 2 + Real.log (1127 / 1600 : ℝ) := by
    rw [show (2254 / 25 : ℝ) = 2 ^ (7 : ℤ) * (1127 / 1600 : ℝ) by norm_num,
      Real.log_mul (by norm_num) (by norm_num), Real.log_zpow]
    norm_num
  constructor <;> linarith [Real.log_two_gt_d9, Real.log_two_lt_d9, h.1, h.2, hdec]

lemma log_34_5_bounds : (1.916822 : ℝ) ≤ Real.log (34 / 5) ∧ Real.log (34 / 5 : ℝ) ≤ 1.917023 := by
  have h := log_series_bound (3 / 20 : ℝ) (by rw [abs_lt]; norm_num)
  norm_num [Finset.sum_range_succ, abs_of_nonneg] at h
  have hdec : Real.log (34 / 5 : ℝ) = (3 : ℝ) * Real.log 2 + Real.log (17 / 20 : ℝ) := by
    rw [show (34 / 5 : ℝ) = 2 ^ (3 : ℤ) * (17 / 20 : ℝ) by norm_num,
      Real.log_mul (by norm_num) (by norm_num), Real.log_zpow]
    norm_num
  constructor <;> linarith [Real.log_two_gt_d9, Real.log_two_lt_d9, h.1, h.2, hdec]

lemma log_pi_bounds : (1.144629 : ℝ) ≤ Real.log Real.pi ∧ Real.log Real.pi ≤ 1.14483 := by
  have hlo := log_series_bound (107301 / 500000 : ℝ) (by rw [abs_lt]; norm_num)
  norm_num [Finset.sum_range_succ, abs_of_nonneg] at hlo
  have hhi := log_series_bound (858407 / 4000000 : ℝ) (by rw [abs_lt]; norm_num)
  norm_num [Finset.sum_range_succ, abs_of_nonneg] at hhi
  have hdlo : Real.log (3141592 / 1000000 : ℝ) =
      2 * Real.log 2 + Real.log (392699 / 500000 : ℝ) := by
    rw [show (3141592 / 1000000 : ℝ) = 2 ^ (2 : ℤ) * (392699 / 500000 : ℝ) by norm_num,
      Real.log_mul (by norm_num) (by norm_num), Real.log_zpow]
    norm_num
  have hdhi : Real.log (3141593 / 1000000 : ℝ) =
      2 * Real.log 2 + Real.log (3141593 / 4000000 : ℝ) := by
    rw [show (3141593 / 1000000 : ℝ) = 2 ^ (2 : ℤ) * (3141593 / 4000000 : ℝ) by norm_num,
      Real.log_mul (by norm_num) (by norm_num), Real.log_zpow]
    norm_num
  have hm1 : Real.log (3141592 / 1000000 : ℝ) ≤ Real.log Real.pi :=
    Real.log_le_log (by norm_num) (by linarith [Real.pi_gt_d6])
  have hm2 : Real.log Real.pi ≤ Real.log (3141593 / 1000000 : ℝ) :=
    Real.log_le_log (by positivity) (by linarith [Real.pi_lt_d6])
  constructor <;>
    linarith [Real.log_two_gt_d9, Real.log_two_lt_d9, hlo.1, hlo.2, hhi.1, hhi.2]

/-! ## Evaluation of the fitted parameters on the nine-record dataset -/

lemma dataM_eq :
    dataM = [(0, 1.82, 82, 30), (0, 1.80, 86, 28), (0, 1.70, 77, 30), (0, 1.80, 75, 25)] := by
  simp only [dataM, data, List.filter]
  norm_num

lemma dataF_eq :
    dataF = [(1, 1.52, 45, 15), (1, 1.65, 68, 20), (1, 1.68, 59, 18), (1, 1.75, 68, 23),
      (1, 1.58, 49, 19)] := by
  simp only [dataF, data, List.filter]
  norm_num

lemma pS0_eq : pS0 = 4 / 9 := by
  rw [pS0, dataM_eq]
  simp [data]

lemma pS1_eq : pS1 = 5 / 9 := by
  rw [pS1, dataF_eq]
  simp [data]

lemma mu_HS0_eq : mu_HS0 = 89 / 50 := by
  rw [mu_HS0, dataM_eq]
  simp only [colH, List.map, np_mean, List.sum_cons, List.sum_nil, List.length]
  norm_num

lemma std_HS0_eq : std_HS0 = Real.sqrt (11 / 5000) := by
  rw [std_HS0, dataM_eq]
  have hm : np_mean (colH [(0, 1.82, 82, 30), (0, 1.80, 86, 28), (0, 1.70, 77, 30),
      (0, 1.80, 75, 25)]) = 89 / 50 := by
    simp only [colH, List.map, np_mean, List.sum_cons, List.sum_nil, List.length]
    norm_num
  simp only [np_std, hm, colH, List.map, np_mean, List.sum_cons, List.sum_nil, List.length]
  norm_num

lemma mu_WS0_eq : mu_WS0 = 80 := by
  rw [mu_WS0, dataM_eq]
  simp only [colW, List.map, np_mean, List.sum_cons, List.sum_nil, List.length]
  norm_num

lemma std_WS0_eq : std_WS0 = Real.sqrt (37 / 2) := by
  rw [std_WS0, dataM_eq]
  have hm : np_mean (colW [(0, 1.82, 82, 30), (0, 1.80, 86, 28), (0, 1.70, 77, 30),
      (0, 1.80, 75, 25)]) = 80 := by
    simp only [colW, List.map, np_mean, List.sum_cons, List.sum_nil, List.length]
    norm_num
  simp only [np_std, hm, colW, List.map, np_mean, List.sum_cons, List.sum_nil, List.length]
  norm_num

lemma mu_FS0_eq : mu_FS0 = 113 / 4 := by
  rw [mu_FS0, dataM_eq]
  simp only [colF, List.map, np_mean, List.sum_cons, List.sum_nil, List.length]
  norm_num

lemma std_FS0_eq : std_FS0 = Real.sqrt (67 / 16) := by
  rw [std_FS0, dataM_eq]
  have hm : np_mean (colF [(0, 1.82, 82, 30), (0, 1.80, 86, 28), (0, 1.70, 77, 30),
      (0, 1.80, 75, 25)]) = 113 / 4 := by
    simp only [colF, List.map, np_mean, List.sum_cons, List.sum_nil, List.length]
    norm_num
  simp only [np_std, hm, colF, List.map, np_mean, List.sum_cons, List.sum_nil, List.length]
  norm_num

lemma mu_HS1_eq : mu_HS1 = 409 / 250 := by
  rw [mu_HS1, dataF_eq]
  simp only [colH, List.map, np_mean, List.sum_cons, List.sum_nil, List.length]
  norm_num

lemma std_HS1_eq : std_HS1 = Real.sqrt (793 / 125000) := by
  rw [std_HS1, dataF_eq]
  have hm : np_mean (colH [(1, 1.52, 45, 15), (1, 1.65, 68, 20), (1, 1.68, 59, 18),
      (1, 1.75, 68, 23), (1, 1.58, 49, 19)]) = 409 / 250 := by
    simp only [colH, List.map, np_mean, List.sum_cons, List.sum_nil, List.length]
    norm_num
  simp only [np_std, hm, colH, List.map, np_mean, List.sum_cons, List.sum_nil, List.length]
  norm_num

lemma mu_WS1_eq : mu_WS1 = 289 / 5 := by
  rw [mu_WS1, dataF_eq]
  simp only [colW, List.map, np_mean, List.sum_cons, List.sum_nil, List.length]
  norm_num

lemma std_WS1_eq : std_WS1 = Real.sqrt (2254 / 25) := by
  rw [std_WS1, dataF_eq]
  have hm : np_mean (colW [(1, 1.52, 45, 15), (1, 1.65, 68, 20), (1, 1.68, 59, 18),
      (1, 1.75, 68, 23), (1, 1.58, 49, 19)]) = 289 / 5 := by
    simp only [colW, List.map, np_mean, List.sum_cons, List.sum_nil, List.length]
    norm_num
  simp only [np_std, hm, colW, List.map, np_mean, List.sum_cons, List.sum_nil, List.length]
  norm_num

lemma mu_FS1_eq : mu_FS1 = 19 := by
  rw [mu_FS1, dataF_eq]
  simp only [colF, List.map, np_mean, List.sum_cons, List.sum_nil, List.length]
  norm_num

lemma std_FS1_eq : std_FS1 = Real.sqrt (34 / 5) := by
  rw [std_FS1, dataF_eq]
  have hm : np_mean (colF [(1, 1.52, 45, 15), (1, 1.65, 68, 20), (1, 1.68, 59, 18),
      (1, 1.75, 68, 23), (1, 1.58, 49, 19)]) = 19 := by
    simp only [colF, List.map, np_mean, List.sum_cons, List.sum_nil, List.length]
    norm_num
  simp only [np_std, hm, colF, List.map, np_mean, List.sum_cons, List.sum_nil, List.length]
  norm_num

/-! ## The log-density in terms of the variance, and the log/product link -/

lemma norm_logpdf_sqrt (x m v : ℝ) (hv : 0 < v) :
    norm_logpdf x m (Real.sqrt v) =
      -((x - m) ^ 2 / v) / 2 - Real.log v / 2 - (Real.log 2 + Real.log Real.pi) / 2 := by
  rw [norm_logpdf, div_pow, Real.sq_sqrt hv.le, Real.log_sqrt hv.le,
    Real.log_mul two_ne_zero Real.pi_ne_zero]

lemma norm_pdf_pos (x m s : ℝ) (hs : 0 < s) : 0 < norm_pdf x m s := by
  rw [norm_pdf]
  exact div_pos (Real.exp_pos _)
    (mul_pos hs (Real.sqrt_pos.mpr (by positivity)))

lemma norm_logpdf_eq_log (x m s : ℝ) (hs : 0 < s) :
    norm_logpdf x m s = Real.log (norm_pdf x m s) := by
  have hden : (0 : ℝ) < s * Real.sqrt (2 * Real.pi) :=
    mul_pos hs (Real.sqrt_pos.mpr (by positivity))
  rw [norm_pdf, norm_logpdf, Real.log_div (Real.exp_ne_zero _) hden.ne',
    Real.log_exp, Real.log_mul hs.ne' (Real.sqrt_pos.mpr (by positivity)).ne',
    Real.log_sqrt (by positivity)]
  ring

lemma std_HS0_pos : 0 < std_HS0 := by
  rw [std_HS0_eq]; exact Real.sqrt_pos.mpr (by norm_num)

lemma std_WS0_pos : 0 < std_WS0 := by
  rw [std_WS0_eq]; exact Real.sqrt_pos.mpr (by norm_num)

lemma std_FS0_pos : 0 < std_FS0 := by
  rw [std_FS0_eq]; exact Real.sqrt_pos.mpr (by norm_num)

lemma std_HS1_pos : 0 < std_HS1 := by
  rw [std_HS1_eq]; exact Real.sqrt_pos.mpr (by norm_num)

lemma std_WS1_pos : 0 < std_WS1 := by
  rw [std_WS1_eq]; exact Real.sqrt_pos.mpr (by norm_num)

lemma std_FS1_pos : 0 < std_FS1 := by
  rw [std_FS1_eq]; exact Real.sqrt_pos.mpr (by norm_num)

lemma score_M_pos : 0 < score_M := by
  rw [score_M]
  have h0 : (0 : ℝ) < pS0 := by rw [pS0_eq]; norm_num
  exact mul_pos (mul_pos (mul_pos h0 (norm_pdf_pos _ _ _ std_HS0_pos))
    (norm_pdf_pos _ _ _ std_WS0_pos)) (norm_pdf_pos _ _ _ std_FS0_pos)

lemma score_F_pos : 0 < score_F := by
  rw [score_F]
  have h0 : (0 : ℝ) < pS1 := by rw [pS1_eq]; norm_num
  exact mul_pos (mul_pos (mul_pos h0 (norm_pdf_pos _ _ _ std_HS1_pos))
    (norm_pdf_pos _ _ _ std_WS1_pos)) (norm_pdf_pos _ _ _ std_FS1_pos)

lemma log_score_M_eq_log : log_score_M = Real.log score_M := by
  have h0 : (0 : ℝ) < pS0 := by rw [pS0_eq]; norm_num
  have h1 := norm_pdf_pos 1.81 mu_HS0 std_HS0 std_HS0_pos
  have h2 := norm_pdf_pos 59 mu_WS0 std_WS0 std_WS0_pos
  have h3 := norm_pdf_pos 21 mu_FS0 std_FS0 std_FS0_pos
  rw [score_M, Real.log_mul (by positivity) h3.ne', Real.log_mul (by positivity) h2.ne',
    Real.log_mul h0.ne' h1.ne', log_score_M,
    norm_logpdf_eq_log _ _ _ std_HS0_pos, norm_logpdf_eq_log _ _ _ std_WS0_pos,
    norm_logpdf_eq_log _ _ _ std_FS0_pos]

lemma log_score_F_eq_log : log_score_F = Real.log score_F := by
  have h0 : (0 : ℝ) < pS1 := by rw [pS1_eq]; norm_num
  have h1 := norm_pdf_pos 1.81 mu_HS1 std_HS1 std_HS1_pos
  have h2 := norm_pdf_pos 59 mu_WS1 std_WS1 std_WS1_pos
  have h3 := norm_pdf_pos 21 mu_FS1 std_FS1 std_FS1_pos
  rw [score_F, Real.log_mul (by positivity) h3.ne', Real.log_mul (by positivity) h2.ne',
    Real.log_mul h0.ne' h1.ne', log_score_F,
    norm_logpdf_eq_log _ _ _ std_HS1_pos, norm_logpdf_eq_log _ _ _ std_WS1_pos,
    norm_logpdf_eq_log _ _ _ std_FS1_pos]

/-! ## Two-sided numeric bounds on the two log-scores -/

lemma log_score_M_bound : |log_score_M - (-21.08)| < 0.01 := by
  rw [log_score_M, pS0_eq, mu_HS0_eq, std_HS0_eq, mu_WS0_eq, std_WS0_eq, mu_FS0_eq, std_FS0_eq,
    norm_logpdf_sqrt _ _ _ (by norm_num), norm_logpdf_sqrt _ _ _ (by norm_num),
    norm_logpdf_sqrt _ _ _ (by norm_num), abs_lt]
  constructor <;>
    nlinarith [log_4_9_bounds.1, log_4_9_bounds.2, log_11_5000_bounds.1, log_11_5000_bounds.2,
      log_37_2_bounds.1, log_37_2_bounds.2, log_67_16_bounds.1, log_67_16_bounds.2,
      log_pi_bounds.1, log_pi_bounds.2, Real.log_two_gt_d9, Real.log_two_lt_d9]

lemma log_score_F_bound : |log_score_F - (-6.71)| < 0.01 := by
  rw [log_score_F, pS1_eq, mu_HS1_eq, std_HS1_eq, mu_WS1_eq, std_WS1_eq, mu_FS1_eq, std_FS1_eq,
    norm_logpdf_sqrt _ _ _ (by norm_num), norm_logpdf_sqrt _ _ _ (by norm_num),
    norm_logpdf_sqrt _ _ _ (by norm_num), abs_lt]
  constructor <;>
    nlinarith [log_5_9_bounds.1, log_5_9_bounds.2, log_793_125000_bounds.1,
      log_793_125000_bounds.2, log_2254_25_bounds.1, log_2254_25_bounds.2,
      log_34_5_bounds.1, log_34_5_bounds.2,
      log_pi_bounds.1, log_pi_bounds.2, Real.log_two_gt_d9, Real.log_two_lt_d9]

/-- Claim C1: training the per-class Gaussian naive Bayes on the 9-record
sex/height/weight/foot-size dataset and scoring the input (H=1.81, W=59, F=21)
ranks class female (label 1) strictly above class male (label 0) in posterior
probability, and the log-scores equal male ≈ -21.08 and female ≈ -6.71 within
numerical tolerance (0.01). -/
theorem c1_worked_example_ranks_female :
    (nb_posteriors score_M score_F).1 < (nb_posteriors score_M score_F).2 ∧
    |log_score_M - (-21.08)| < 0.01 ∧ |log_score_F - (-6.71)| < 0.01 := by
  have hMb := log_score_M_bound
  have hFb := log_score_F_bound
  rw [abs_lt] at hMb hFb
  have hlog : Real.log score_M < Real.log score_F := by
    rw [← log_score_M_eq_log, ← log_score_F_eq_log]
    linarith [hMb.2, hFb.1]
  have hscore : score_M < score_F := (Real.log_lt_log_iff score_M_pos score_F_pos).mp hlog
  refine ⟨?_, log_score_M_bound, log_score_F_bound⟩
  have hS : (0 : ℝ) < score_M + score_F := by linarith [score_M_pos, score_F_pos]
  exact (div_lt_div_iff_of_pos_right hS).mpr hscore

/-! ## GP Regression notebook: covariance kernel and surrogate predictor -/

open Matrix

/-- `cov_function(point_1, point_2, theta, sig)` of the notebook:
`sig**2 * exp(-sum((point_1-point_2)**2 / theta**2))`. -/
noncomputable def cov_function {d : ℕ} (point_1 point_2 : Fin d → ℝ) (theta : Fin d → ℝ)
    (sig : ℝ) : ℝ :=
  sig ^ 2 * Real.exp (-(∑ i, (point_1 i - point_2 i) ^ 2 / theta i ^ 2))

/-- `cov_matrix(points, theta, sig)` of the notebook: column `i` holds
`cov_function(points[i], point_1)` for each stored `point_1`, so entry
`(j, i)` is `cov_function(points[i], points[j])`. -/
noncomputable def cov_matrix {n d : ℕ} (points : Fin n → Fin d → ℝ) (theta : Fin d → ℝ)
    (sig : ℝ) : Matrix (Fin n) (Fin n) ℝ :=
  Matrix.of fun j i => cov_function (points i) (points j) theta sig

/-- `cov_vect(point, points, theta, sig)` of the notebook. -/
noncomputable def cov_vect {n d : ℕ} (point : Fin d → ℝ) (points : Fin n → Fin d → ℝ)
    (theta : Fin d → ℝ) (sig : ℝ) : Fin n → ℝ :=
  fun j => cov_function point (points j) theta sig

/-- Modelled from the spec: the notebook's solution cell defining `myGPpredict`
is empty; the spec states the mean as `mu(x) = k_star(x) · K^{-1} · y`. -/
noncomputable def myGPpredict_mu {n d : ℕ} (x : Fin d → ℝ) (points : Fin n → Fin d → ℝ)
    (y : Fin n → ℝ) (theta : Fin d → ℝ) (sig : ℝ) : ℝ :=
  cov_vect x points theta sig ⬝ᵥ ((cov_matrix points theta sig)⁻¹ *ᵥ y)

/-- Modelled from the spec: the notebook's solution cell defining `myGPpredict`
is empty; the spec states the variance as
`sigma2(x) = k(x,x) - k_star(x) · K^{-1} · k_star(x)^T`. -/
noncomputable def myGPpredict_sigma2 {n d : ℕ} (x : Fin d → ℝ) (points : Fin n → Fin d → ℝ)
    (theta : Fin d → ℝ) (sig : ℝ) : ℝ :=
  cov_function x x theta sig -
    cov_vect x points theta sig ⬝ᵥ ((cov_matrix points theta sig)⁻¹ *ᵥ cov_vect x points theta sig)

lemma cov_function_comm {d : ℕ} (p q theta : Fin d → ℝ) (sig : ℝ) :
    cov_function p q theta sig = cov_function q p theta sig := by
  unfold cov_function
  have h : ∑ i, (p i - q i) ^ 2 / theta i ^ 2 = ∑ i, (q i - p i) ^ 2 / theta i ^ 2 :=
    Finset.sum_congr rfl fun i _ => by ring
  rw [h]

lemma cov_matrix_apply {n d : ℕ} (points : Fin n → Fin d → ℝ) (theta : Fin d → ℝ) (sig : ℝ)
    (i j : Fin n) :
    cov_matrix points theta sig i j = cov_function (points j) (points i) theta sig := rfl

lemma cov_vect_self_row {n d : ℕ} (points : Fin n → Fin d → ℝ) (theta : Fin d → ℝ) (sig : ℝ)
    (i : Fin n) :
    cov_vect (points i) points theta sig = cov_matrix points theta sig i := by
  funext j
  rw [cov_vect, cov_matrix_apply]
  exact cov_function_comm _ _ _ _

/-- Claim C2: for every design with pairwise-distinct stored points, positive
length-scales and signal variance, and invertible covariance matrix K, the GP
surrogate prediction at a stored point `points i` has mean equal to the observed
`y i` and variance equal to `0`. -/
theorem c2_gp_interpolation {n d : ℕ} (points : Fin n → Fin d → ℝ) (y : Fin n → ℝ)
    (theta : Fin d → ℝ) (sig : ℝ) (hdist : Function.Injective points)
    (htheta : ∀ k, 0 < theta k) (hsig : 0 < sig)
    (hK : IsUnit (cov_matrix points theta sig).det) (i : Fin n) :
    myGPpredict_mu (points i) points y theta sig = y i ∧
    myGPpredict_sigma2 (points i) points theta sig = 0 := by
  have hmul : ∀ v : Fin n → ℝ,
      cov_matrix points theta sig *ᵥ ((cov_matrix points theta sig)⁻¹ *ᵥ v) = v := by
    intro v
    rw [Matrix.mulVec_mulVec, Matrix.mul_nonsing_inv _ hK, Matrix.one_mulVec]
  constructor
  · show cov_vect (points i) points theta sig ⬝ᵥ ((cov_matrix points theta sig)⁻¹ *ᵥ y) = y i
    rw [cov_vect_self_row]
    calc cov_matrix points theta sig i ⬝ᵥ ((cov_matrix points theta sig)⁻¹ *ᵥ y)
        = (cov_matrix points theta sig *ᵥ ((cov_matrix points theta sig)⁻¹ *ᵥ y)) i := rfl
      _ = y i := by rw [hmul]
  · show cov_function (points i) (points i) theta sig -
        cov_vect (points i) points theta sig ⬝ᵥ
          ((cov_matrix points theta sig)⁻¹ *ᵥ cov_vect (points i) points theta sig) = 0
    rw [cov_vect_self_row]
    have : cov_matrix points theta sig i ⬝ᵥ
        ((cov_matrix points theta sig)⁻¹ *ᵥ cov_matrix points theta sig i)
        = (cov_matrix points theta sig *ᵥ
            ((cov_matrix points theta sig)⁻¹ *ᵥ cov_matrix points theta sig i)) i := rfl
    rw [this, hmul, cov_matrix_apply, cov_function_comm, sub_self]

/-- Witness for C2 at a concrete one-point design: the hypotheses hold and the
prediction at the stored point returns the observed value 5 with variance 0. -/
theorem c2_gp_interpolation_witness :
    IsUnit (cov_matrix (fun _ : Fin 1 => fun _ : Fin 1 => (0 : ℝ)) (fun _ => 1) 1).det ∧
    myGPpredict_mu (fun _ : Fin 1 => (0 : ℝ)) (fun _ : Fin 1 => fun _ : Fin 1 => (0 : ℝ))
      (fun _ => 5) (fun _ => 1) 1 = 5 ∧
    myGPpredict_sigma2 (fun _ : Fin 1 => (0 : ℝ)) (fun _ : Fin 1 => fun _ : Fin 1 => (0 : ℝ))
      (fun _ => 1) 1 = 0 := by
  have hdet : (cov_matrix (fun _ : Fin 1 => fun _ : Fin 1 => (0 : ℝ)) (fun _ => 1) 1).det = 1 := by
    rw [Matrix.det_fin_one]
    show cov_function _ _ _ _ = 1
    simp [cov_function]
  have hK : IsUnit (cov_matrix (fun _ : Fin 1 => fun _ : Fin 1 => (0 : ℝ))
      (fun _ => 1) 1).det := by
    rw [hdet]; exact isUnit_one
  have h := c2_gp_interpolation (fun _ : Fin 1 => fun _ : Fin 1 => (0 : ℝ)) (fun _ => 5)
    (fun _ => 1) 1 (fun a b _ => Subsingleton.elim a b) (fun _ => one_pos) one_pos hK 0
  exact ⟨hK, h.1, h.2⟩

/-- Claim C7: with a constant length-scale vector `theta = l`, the covariance
function evaluates to `sig^2 * exp(-||x-x'||^2 / l^2)`, and the covariance
matrix holds exactly this kernel value at entry `(i, j)` for the pair
`(points i, points j)`. -/
theorem c7_cov_function_spec {n d : ℕ} (points : Fin n → Fin d → ℝ) (theta : Fin d → ℝ)
    (sig l : ℝ) (hl : 0 < l) (hsig : 0 < sig) (htheta : ∀ k, theta k = l) :
    (∀ p q : Fin d → ℝ, cov_function p q theta sig =
      sig ^ 2 * Real.exp (-(∑ k, (p k - q k) ^ 2) / l ^ 2)) ∧
    (∀ i j, cov_matrix points theta sig i j =
      cov_function (points i) (points j) theta sig) := by
  constructor
  · intro p q
    unfold cov_function
    have h : ∑ i, (p i - q i) ^ 2 / theta i ^ 2 = ∑ i, (p i - q i) ^ 2 / l ^ 2 :=
      Finset.sum_congr rfl fun k _ => by rw [htheta k]
    rw [h, neg_div, Finset.sum_div]
  · intro i j
    rw [cov_matrix_apply]
    exact cov_function_comm _ _ _ _

/-- Witness for C7 at concrete inputs. -/
theorem c7_cov_function_spec_witness :
    cov_function (fun _ : Fin 1 => (1 : ℝ)) (fun _ => 0) (fun _ => 1) 1 =
      1 ^ 2 * Real.exp (-(∑ k : Fin 1,
        ((fun _ : Fin 1 => (1 : ℝ)) k - (fun _ : Fin 1 => (0 : ℝ)) k) ^ 2) / 1 ^ 2) :=
  (c7_cov_function_spec (fun _ : Fin 1 => fun _ : Fin 1 => (0 : ℝ)) (fun _ => 1) 1 1
    one_pos one_pos (fun _ => rfl)).1 _ _

/-- Claim C10: for a non-empty design and positive `theta` and `sig`, the matrix
returned by `cov_matrix` is symmetric and every diagonal entry equals `sig^2`
(the kernel of a point with itself is `sig^2 * exp 0`); it is square by
construction. -/
theorem c10_cov_matrix_sym_diag {n d : ℕ} (points : Fin n → Fin d → ℝ) (theta : Fin d → ℝ)
    (sig : ℝ) (hn : 0 < n) (htheta : ∀ k, 0 < theta k) (hsig : 0 < sig) :
    (∀ i j, cov_matrix points theta sig i j = cov_matrix points theta sig j i) ∧
    (∀ i, cov_matrix points theta sig i i = sig ^ 2) := by
  constructor
  · intro i j
    rw [cov_matrix_apply, cov_matrix_apply]
    exact cov_function_comm _ _ _ _
  · intro i
    rw [cov_matrix_apply]
    unfold cov_function
    simp [sub_self]

/-- Witness for C10 at a concrete one-point design with `sig = 2`. -/
theorem c10_cov_matrix_sym_diag_witness :
    (0 : ℕ) < 1 ∧
    cov_matrix (fun _ : Fin 1 => fun _ : Fin 1 => (3 : ℝ)) (fun _ => 1) 2 0 0 = 2 ^ 2 :=
  ⟨one_pos,
    (c10_cov_matrix_sym_diag (fun _ : Fin 1 => fun _ : Fin 1 => (3 : ℝ)) (fun _ => 1) 2
      one_pos (fun _ => one_pos) two_pos).2 0⟩

/-! ## EGO loop (fixed iteration budget) -/

/-- Modelled from the spec: one EGO iteration (the notebook's loop solution cell
is empty): select `x_next` from the current design, evaluate the objective
there, and append `(x_next, y_next)` to the design of experiments. -/
def ego_step (f : ℝ → ℝ) (select : List (ℝ × ℝ) → ℝ) (doe : List (ℝ × ℝ)) : List (ℝ × ℝ) :=
  doe ++ [(select doe, f (select doe))]

/-- Modelled from the spec: the EGO loop iterated for a fixed budget `n_iter`
starting from the seed design of experiments. -/
def ego (f : ℝ → ℝ) (select : List (ℝ × ℝ) → ℝ) (doe : List (ℝ × ℝ)) : ℕ → List (ℝ × ℝ)
  | 0 => doe
  | n + 1 => ego_step f select (ego f select doe n)

/-- The running minimum of the observed values of a design of experiments
(`np.min(y_data)`); `0` on the empty design, which never arises. -/
noncomputable def f_min : List (ℝ × ℝ) → ℝ
  | [] => 0
  | p :: rest => (rest.map Prod.snd).foldl min p.2

lemma f_min_append_le (l : List (ℝ × ℝ)) (hl : l ≠ []) (p : ℝ × ℝ) :
    f_min (l ++ [p]) ≤ f_min l := by
  match l with
  | [] => exact absurd rfl hl
  | q :: rest =>
    show ((rest ++ [p]).map Prod.snd).foldl min q.2 ≤ (rest.map Prod.snd).foldl min q.2
    rw [List.map_append, List.foldl_append]
    exact min_le_left _ _

lemma ego_length (f : ℝ → ℝ) (select : List (ℝ × ℝ) → ℝ) (doe : List (ℝ × ℝ)) (n : ℕ) :
    (ego f select doe n).length = doe.length + n := by
  induction n with
  | zero => rfl
  | succ n ih => simp [ego, ego_step, ih]; omega

lemma ego_ne_nil (f : ℝ → ℝ) (select : List (ℝ × ℝ) → ℝ) (doe : List (ℝ × ℝ))
    (h : doe ≠ []) (n : ℕ) : ego f select doe n ≠ [] := by
  have hlen : 0 < (ego f select doe n).length := by
    rw [ego_length]
    have := List.length_pos.mpr h
    omega
  exact List.ne_nil_of_length_pos hlen

/-- Claim C3: for every non-empty initial design and every budget `n_iter`, the
EGO loop appends exactly `n_iter` additional (point, value) pairs beyond the
seed, and the running minimum of observed values is non-increasing from each
iteration to the next. -/
theorem c3_ego_budget (f : ℝ → ℝ) (select : List (ℝ × ℝ) → ℝ) (doe : List (ℝ × ℝ))
    (h : doe ≠ []) (n_iter : ℕ) :
    (ego f select doe n_iter).length = doe.length + n_iter ∧
    f_min (ego f select doe (n_iter + 1)) ≤ f_min (ego f select doe n_iter) := by
  refine ⟨ego_length f select doe n_iter, ?_⟩
  show f_min (ego_step f select (ego f select doe n_iter)) ≤ f_min (ego f select doe n_iter)
  exact f_min_append_le _ (ego_ne_nil f select doe h n_iter) _

/-- Witness for C3 on a concrete seed design, objective and selector. -/
theorem c3_ego_budget_witness :
    ([((1 : ℝ), (2 : ℝ))] ≠ []) ∧
    (ego (fun x => x) (fun _ => 0) [((1 : ℝ), (2 : ℝ))] 1).length =
      [((1 : ℝ), (2 : ℝ))].length + 1 ∧
    f_min (ego (fun x => x) (fun _ => 0) [((1 : ℝ), (2 : ℝ))] 2) ≤
      f_min (ego (fun x => x) (fun _ => 0) [((1 : ℝ), (2 : ℝ))] 1) := by
  have h : ([((1 : ℝ), (2 : ℝ))] : List (ℝ × ℝ)) ≠ [] := by simp
  have hc := c3_ego_budget (fun x => x) (fun _ => 0) [((1 : ℝ), (2 : ℝ))] h 1
  exact ⟨h, hc.1, (c3_ego_budget (fun x => x) (fun _ => 0) [((1 : ℝ), (2 : ℝ))] h 1).2⟩

/-! ## Multistart hyperparameter selection (notebook cell after `code4.py`) -/

/-- One `scipy.optimize.minimize` result: its `success` flag, objective value
`fun` (here `objval`) and argument `x`. -/
structure OptRun where
  success : Bool
  objval : ℝ
  x : ℝ

/-- `opt_success = opt_all[[opt_i['success'] for opt_i in opt_all]]`. -/
def opt_success (opt_all : List OptRun) : List OptRun := opt_all.filter (·.success)

/-- `np.argmin` over the objective values followed by indexing: returns the
first run of minimal objective, or `none` on an empty array (where `np.argmin`
raises a `ValueError`, a fatal error). -/
noncomputable def pick_min_obj : List OptRun → Option OptRun
  | [] => none
  | r :: rs => some (rs.foldl (fun b s => if s.objval < b.objval then s else b) r)

/-- `theta_et = opt['x']` for the selected run, when one exists. -/
noncomputable def theta_et (opt_all : List OptRun) : Option ℝ :=
  (pick_min_obj (opt_success opt_all)).map (·.x)

lemma pick_foldl_spec (rs : List OptRun) (r : OptRun) :
    (rs.foldl (fun b s => if s.objval < b.objval then s else b) r) ∈ r :: rs ∧
    ∀ s ∈ r :: rs,
      (rs.foldl (fun b s => if s.objval < b.objval then s else b) r).objval ≤ s.objval := by
  induction rs generalizing r with
  | nil =>
    refine ⟨List.mem_singleton.mpr rfl, ?_⟩
    intro s hs
    rw [List.mem_singleton.mp hs]
    exact le_refl _
  | cons a rs ih =>
    have step : (if a.objval < r.objval then a else r) ∈ [r, a] ∧
        (if a.objval < r.objval then a else r).objval ≤ r.objval ∧
        (if a.objval < r.objval then a else r).objval ≤ a.objval := by
      by_cases hc : a.objval < r.objval
      · rw [if_pos hc]
        exact ⟨by simp, le_of_lt hc, le_refl _⟩
      · rw [if_neg hc]
        exact ⟨by simp, le_refl _, le_of_not_lt hc⟩
    have hfold := ih (if a.objval < r.objval then a else r)
    constructor
    · show List.foldl _ (if a.objval < r.objval then a else r) rs ∈ r :: a :: rs
      rcases List.mem_cons.mp hfold.1 with hhead | htail
      · rw [hhead]
        rcases List.mem_pair.mp step.1 with h1 | h1 <;> rw [h1] <;> simp
      · exact List.mem_cons_of_mem _ (List.mem_cons_of_mem _ htail)
    · intro s hs
      rcases List.mem_cons.mp hs with h1 | hs1
      · calc (List.foldl _ (if a.objval < r.objval then a else r) rs).objval
            ≤ (if a.objval < r.objval then a else r).objval :=
              hfold.2 _ (List.mem_cons_self _ _)
          _ ≤ s.objval := by rw [h1]; exact step.2.1
      rcases List.mem_cons.mp hs1 with h2 | hs2
      · calc (List.foldl _ (if a.objval < r.objval then a else r) rs).objval
            ≤ (if a.objval < r.objval then a else r).objval :=
              hfold.2 _ (List.mem_cons_self _ _)
          _ ≤ s.objval := by rw [h2]; exact step.2.2
      · exact hfold.2 s (List.mem_cons_of_mem _ hs2)

/-- Claim C5: the hyperparameter kept after multistart optimization comes from a
run reported as successful and minimizes the objective over all successful
runs; when no run is successful the fit attempt fails (the code's `np.argmin`
on an empty array raises) rather than returning a hyperparameter. -/
theorem c5_multistart_selection (opt_all : List OptRun) :
    (opt_success opt_all = [] → theta_et opt_all = none) ∧
    (∀ r, pick_min_obj (opt_success opt_all) = some r →
      r ∈ opt_success opt_all ∧ r.success = true ∧
      (∀ s ∈ opt_success opt_all, r.objval ≤ s.objval) ∧ theta_et opt_all = some r.x) := by
  constructor
  · intro hempty
    unfold theta_et
    rw [hempty]
    rfl
  · intro r hr
    match hcase : opt_success opt_all with
    | [] =>
      rw [hcase] at hr
      simp only [pick_min_obj] at hr
      exact Option.noConfusion hr
    | q :: rest =>
      rw [hcase] at hr
      simp only [pick_min_obj, Option.some.injEq] at hr
      have hfold := pick_foldl_spec rest q
      rw [hr] at hfold
      have hmemf : r ∈ opt_success opt_all := by rw [hcase]; exact hfold.1
      refine ⟨hfold.1, List.of_mem_filter hmemf, fun s hs => hfold.2 s hs, ?_⟩
      unfold theta_et
      rw [hcase]
      simp [pick_min_obj, hr]

/-- Witness for C5: a concrete multistart result array with one failed and two
successful runs; the run with objective 1 and argument 4 is kept. -/
theorem c5_multistart_selection_witness :
    pick_min_obj (opt_success [⟨false, 5, 1⟩, ⟨true, 3, 2⟩, ⟨true, 1, 4⟩]) =
      some ⟨true, 1, 4⟩ ∧
    (⟨true, 1, 4⟩ : OptRun) ∈ opt_success [⟨false, 5, 1⟩, ⟨true, 3, 2⟩, ⟨true, 1, 4⟩] ∧
    theta_et [⟨false, 5, 1⟩, ⟨true, 3, 2⟩, ⟨true, 1, 4⟩] = some 4 := by
  have hfilter : opt_success [⟨false, 5, 1⟩, ⟨true, 3, 2⟩, ⟨true, 1, 4⟩] =
      [⟨true, 3, 2⟩, ⟨true, 1, 4⟩] := by
    simp [opt_success, List.filter]
  have hpick : pick_min_obj (opt_success [⟨false, 5, 1⟩, ⟨true, 3, 2⟩, ⟨true, 1, 4⟩]) =
      some ⟨true, 1, 4⟩ := by
    rw [hfilter, pick_min_obj]
    norm_num
  have h := (c5_multistart_selection [⟨false, 5, 1⟩, ⟨true, 3, 2⟩, ⟨true, 1, 4⟩]).2
    ⟨true, 1, 4⟩ hpick
  exact ⟨hpick, h.1, h.2.2.2⟩

/-! ## Expected Improvement acquisition -/

/-- The standard normal density `norm.pdf(z)`. -/
noncomputable def norm_pdf_std (z : ℝ) : ℝ := Real.exp (-z ^ 2 / 2) / Real.sqrt (2 * Real.pi)

/-- The standard normal cumulative distribution `norm.cdf(z)`. -/
noncomputable def norm_cdf (z : ℝ) : ℝ := ∫ t in Set.Iic z, norm_pdf_std t

/-- Modelled from the spec: the notebook's solution cell defining `EI` is empty;
the spec states `EI(x) = (f_min - mu(x)) * Phi(z) + sigma(x) * phi(z)` with
`z = (f_min - mu(x)) / sigma(x)`, defined as `0` when `sigma(x) = 0`. -/
noncomputable def EI (mu sigma fmin : ℝ) : ℝ :=
  if sigma = 0 then 0
  else (fmin - mu) * norm_cdf ((fmin - mu) / sigma) + sigma * norm_pdf_std ((fmin - mu) / sigma)

/-- Claim C6: the Expected Improvement acquisition equals
`(f_min - mu) * Phi(z) + sigma * phi(z)` when `sigma > 0` and equals `0` when
`sigma = 0`, so no division by zero occurs at an already-sampled point. -/
theorem c6_ei_cases (mu sigma fmin : ℝ) :
    (0 < sigma → EI mu sigma fmin =
      (fmin - mu) * norm_cdf ((fmin - mu) / sigma) +
        sigma * norm_pdf_std ((fmin - mu) / sigma)) ∧
    (sigma = 0 → EI mu sigma fmin = 0) := by
  constructor
  · intro hs
    rw [EI, if_neg hs.ne']
  · intro hs
    rw [EI, if_pos hs]

/-- Witness for C6 at concrete inputs, one for each branch. -/
theorem c6_ei_cases_witness :
    EI 0 1 0 = (0 - 0) * norm_cdf ((0 - 0) / 1) + 1 * norm_pdf_std ((0 - 0) / 1) ∧
    EI 0 0 0 = 0 :=
  ⟨(c6_ei_cases 0 1 0).1 one_pos, (c6_ei_cases 0 0 0).2 rfl⟩

/-! ## Algebraic properties of the naive Bayes scores -/

lemma log_list_prod (l : List ℝ) (hl : ∀ p ∈ l, 0 < p) :
    Real.log l.prod = (l.map Real.log).sum := by
  induction l with
  | nil => simp
  | cons a l ih =>
    have ha : 0 < a := hl a (List.mem_cons_self a l)
    have hprod : 0 < l.prod := List.prod_pos fun p hp => hl p (List.mem_cons_of_mem a hp)
    rw [List.prod_cons, Real.log_mul ha.ne' hprod.ne', List.map_cons, List.sum_cons,
      ih fun p hp => hl p (List.mem_cons_of_mem a hp)]

/-- Claim C4: for every class whose prior probability and per-feature
conditional density values at the input are strictly positive, the log-space
accumulation `log(prior) + Σ_i log p(x_i|c)` equals the logarithm of the direct
product score `prior * Π_i p(x_i|c)`. -/
theorem c4_log_score_eq_log_product (prior : ℝ) (ps : List ℝ) (hprior : 0 < prior)
    (hps : ∀ p ∈ ps, 0 < p) :
    nb_log_score prior ps = Real.log (nb_score prior ps) := by
  have hprod : 0 < ps.prod := List.prod_pos hps
  rw [nb_score, nb_log_score, Real.log_mul hprior.ne' hprod.ne', log_list_prod ps hps]

/-- Witness for C4 on a concrete prior and density list. -/
theorem c4_log_score_eq_log_product_witness :
    (0 : ℝ) < 2 ∧ (∀ p ∈ [(3 : ℝ), 5], 0 < p) ∧
    nb_log_score 2 [3, 5] = Real.log (nb_score 2 [3, 5]) := by
  have hps : ∀ p ∈ [(3 : ℝ), 5], 0 < p := by
    intro p hp
    rcases List.mem_cons.mp hp with h | h
    · rw [h]; norm_num
    · rw [List.mem_singleton.mp h]; norm_num
  exact ⟨by norm_num, hps, c4_log_score_eq_log_product 2 [3, 5] (by norm_num) hps⟩

/-- Claim C8: with all class scores strictly positive, the posterior obtained by
dividing each score by the total equals the posterior obtained by the stable
softmax over the log-scores (shifting by the max log-score), for both classes;
hence the two normalizations pick the same argmax class. -/
theorem c8_softmax_eq_direct (s1 s2 : ℝ) (h1 : 0 < s1) (h2 : 0 < s2) :
    nb_proba_softmax (Real.log s1) (Real.log s2) = (nb_posteriors s1 s2).1 ∧
    nb_proba_softmax (Real.log s2) (Real.log s1) = (nb_posteriors s1 s2).2 := by
  have key : ∀ a b : ℝ, 0 < a → 0 < b →
      nb_proba_softmax (Real.log a) (Real.log b) = a / (a + b) := by
    intro a b ha hb
    rw [nb_proba_softmax, Real.exp_sub, Real.exp_sub, Real.exp_log ha, Real.exp_log hb]
    have hm : (0 : ℝ) < Real.exp (max (Real.log a) (Real.log b)) := Real.exp_pos _
    rw [div_add_div_same, div_div_div_cancel_right₀]
    exact hm.ne'
  refine ⟨key s1 s2 h1 h2, ?_⟩
  rw [key s2 s1 h2 h1]
  show s2 / (s2 + s1) = s2 / (s1 + s2)
  rw [add_comm s1 s2]

/-- Witness for C8 at concrete positive scores. -/
theorem c8_softmax_eq_direct_witness :
    (0 : ℝ) < 1 ∧ (0 : ℝ) < 2 ∧
    nb_proba_softmax (Real.log 1) (Real.log 2) = (nb_posteriors 1 2).1 ∧
    nb_proba_softmax (Real.log 2) (Real.log 1) = (nb_posteriors 1 2).2 := by
  have h := c8_softmax_eq_direct 1 2 one_pos two_pos
  exact ⟨one_pos, two_pos, h.1, h.2⟩

/-- Claim C9: with the total score strictly positive, the naive Bayes posterior
probabilities over the two classes (each class score divided by the sum of the
scores) sum to 1; in particular this holds for any class-balanced dataset whose
total score is positive. -/
theorem c9_posteriors_sum_to_one (s1 s2 : ℝ) (h : 0 < s1 + s2) :
    (nb_posteriors s1 s2).1 + (nb_posteriors s1 s2).2 = 1 := by
  rw [nb_posteriors]
  show s1 / (s1 + s2) + s2 / (s1 + s2) = 1
  rw [div_add_div_same, div_self h.ne']

/-- Witness for C9 at concrete scores. -/
theorem c9_posteriors_sum_to_one_witness :
    (0 : ℝ) < 1 + 3 ∧ (nb_posteriors 1 3).1 + (nb_posteriors 1 3).2 = 1 :=
  ⟨by norm_num, c9_posteriors_sum_to_one 1 3 (by norm_num)⟩

end MLRepo
